import Mathlib

/-!
Shallow embedding of the emulation harness of `rustpush`
(`src/emulated/jelly.rs`, `src/emulated/nac.rs`, `src/emulated/mod.rs`).

Machine words (`u64`) are modelled as `Nat`; truncations such as `c as u8`
are written explicitly as `% 256`.  Emulated memory is a total function from
addresses to byte values; `uc.mem_write` becomes `memWrite` and
`uc.mem_read` becomes `memRead` (memory-mapping faults are outside the
fragment the claims touch).  Rust panics (`unwrap`, `unreachable!`,
`panic!`) are modelled as `Option.none` / `Except.error Failure.panic`:
the functions involved have no error-returning path of their own.
-/

namespace RustPush

/-- Write the byte list `bs` into memory `m` starting at address `addr`
(model of `uc.mem_write`). -/
def memWrite (m : Nat → Nat) (addr : Nat) (bs : List Nat) : Nat → Nat :=
  fun a => if addr ≤ a ∧ a - addr < bs.length then bs.getD (a - addr) 0 else m a

/-- Read `n` bytes from memory `m` starting at `addr` (model of
`uc.mem_read`). -/
def memRead (m : Nat → Nat) (addr n : Nat) : List Nat :=
  (List.range n).map (fun i => m (addr + i))

/-- Model of `u64::from_be_bytes` on an 8-byte chunk. -/
def u64_from_be (bs : List Nat) : Nat :=
  bs.foldl (fun acc b => acc * 256 + b) 0

/-- Model of `u64::from_le_bytes` on an 8-byte chunk. -/
def u64_from_le (bs : List Nat) : Nat :=
  bs.foldr (fun b acc => acc * 256 + b) 0

/-- UTF-8 bytes of the string key `"DADiskDescriptionVolumeUUIDKey"`
(ASCII, so one byte per character). -/
def volumeUUIDKeyBytes : List Nat :=
  [68, 65, 68, 105, 115, 107, 68, 101, 115, 99, 114, 105, 112, 116, 105,
   111, 110, 86, 111, 108, 117, 109, 101, 85, 85, 73, 68, 75, 101, 121]

/-- UTF-8 bytes of the string key `"IOProviderClass"` (ASCII). -/
def ioProviderClassBytes : List Nat :=
  [73, 79, 80, 114, 111, 118, 105, 100, 101, 114, 67, 108, 97, 115, 115]

/-- Model of `enum CfObject` from `jelly.rs`: the tagged runtime objects of the
object-handle table.  Rust `String` payloads are modelled by their UTF-8
byte lists; `HashMap<String, CfObject>` becomes an association list whose
`insert` prepends (latest binding wins on lookup, matching map-overwrite
semantics). -/
inductive CfObject where
  | string (bytes : List Nat)
  | data (bytes : List Nat)
  | dictionary (entries : List (List Nat × CfObject))
deriving Repr

/-- Model of `HashMap::get` on the association-list form of a dictionary. -/
def dictGet : List (List Nat × CfObject) → List Nat → Option CfObject
  | [], _ => none
  | (k', v) :: t, k => if k' = k then some v else dictGet t k

/-- Model of `HashMap::insert` on the association-list form of a dictionary. -/
def dictInsert (m : List (List Nat × CfObject)) (k : List Nat) (v : CfObject) :
    List (List Nat × CfObject) :=
  (k, v) :: m

/-- Model of `struct Jelly` from `jelly.rs`, restricted to the state the hook
implementations read and write: the object table, the one-shot iterator
flag, the emulated memory and the bump-allocator cursor. -/
structure Jelly where
  cf_objects : List CfObject
  eth_iterator_hack : Bool
  mem : Nat → Nat
  heap_size : Nat

/-- Model of `Jelly::new`: fresh state (empty object table, flag down, zeroed
memory, heap cursor at 0). -/
def Jelly.new : Jelly :=
  { cf_objects := [], eth_iterator_hack := false, mem := fun _ => 0, heap_size := 0 }

/-- Model of `jelly.cf_objects.get(h as usize - 1)`: resolve a 1-based handle.
A handle of `0` wraps below the table (`0u64 as usize - 1`), which in the
source ends in a panic either way, so it resolves to `none`. -/
def cfGet (objs : List CfObject) (h : Nat) : Option CfObject :=
  if h = 0 then none else objs.get? (h - 1)

/-- Constant `Jelly::HEAP_BASE`. -/
def HEAP_BASE : Nat := 0x4000

/-- Model of `Jelly::malloc`: returns the current heap cursor and advances it by
`size` (bump allocation, never freed). -/
def malloc (j : Jelly) (size : Nat) : Jelly × Nat :=
  ({ j with heap_size := j.heap_size + size }, HEAP_BASE + j.heap_size)

/-- The sentinel key constant special-cased by `_CFDictionaryGetValue`
(`nac.rs` line 212). -/
def sentinelKey : Nat := 0xc3c3c3c3c3c3c3c3

/-- The literal string key the sentinel maps to. -/
def volumeUUIDKey : List Nat := volumeUUIDKeyBytes

/-- Symbol name of the `_malloc` hook as registered in `load_nac`. -/
def mallocSym : String := "_malloc"

/-- The hardcoded literal `nac.rs`'s driver returns. -/
def validationDataStr : String := "validation data"

/-- Parse-error message for a truncated header. -/
def eofErr : String := "eof"

/-- Hook `_CFDictionaryGetValue` (`nac.rs` lines 210–228): resolves the
dictionary handle, turns the raw `key` argument into a string key (the
sentinel constant stands for the volume-UUID key, any other value is
resolved as a string handle), looks the key up, pushes a clone of the
found value and returns the new table length as its handle.  `none` is
the source's panic (`unwrap` / `invalid key` / `invalid object type` /
`key not found`). -/
def CFDictionaryGetValue (j : Jelly) (d key : Nat) : Option (Jelly × Nat) :=
  match cfGet j.cf_objects d with
  | none => none
  | some dobj =>
    let k? : Option (List Nat) :=
      if key = sentinelKey then some volumeUUIDKey
      else match cfGet j.cf_objects key with
        | some (.string s) => some s
        | _ => none
    match k? with
    | none => none
    | some k =>
      match dobj with
      | .dictionary m =>
        match dictGet m k with
        | none => none
        | some v =>
          some ({ j with cf_objects := j.cf_objects ++ [v] }, j.cf_objects.length + 1)
      | _ => none

/-- Hook `_CFDictionarySetValue` (`nac.rs` lines 280–290): resolves the
key handle (must be a string), clones the value at the value handle, then
replaces the dictionary at handle `d` with the dictionary extended by the
binding.  Returns 0. -/
def CFDictionarySetValue (j : Jelly) (d key val : Nat) : Option (Jelly × Nat) :=
  match cfGet j.cf_objects key with
  | some (.string k) =>
    match cfGet j.cf_objects val with
    | none => none
    | some v =>
      match cfGet j.cf_objects d with
      | some (.dictionary m) =>
        some ({ j with
                 cf_objects := j.cf_objects.set (d - 1) (.dictionary (dictInsert m k v)) }, 0)
      | _ => none
  | _ => none

/-- Hook `_CFStringGetCString` (`nac.rs` lines 237–250): resolves the
string handle, truncates the byte length at the caller-provided capacity
`buf_len`, writes that many bytes at `buf` and returns the count.  The
`encoding` argument is unused. -/
def CFStringGetCString (j : Jelly) (string buf buf_len encoding : Nat) :
    Option (Jelly × Nat) :=
  match cfGet j.cf_objects string with
  | some (.string s) =>
    let n := if s.length > buf_len then buf_len else s.length
    some ({ j with mem := memWrite j.mem buf (s.take n) }, n)
  | _ => none

/-- Hook `___memset_chk` (`nac.rs` lines 139–145): writes `len` copies of
the low byte of `c` at `dest` and returns 0.  The fourth argument
`dest_len` (the checked destination capacity) is never read. -/
def memset_chk (j : Jelly) (dest c len dest_len : Nat) : Jelly × Nat :=
  ({ j with mem := memWrite j.mem dest (List.replicate len (c % 256)) }, 0)

/-- Hook `_IOServiceGetMatchingServices` (`nac.rs` lines 291–295): raises
the one-shot iterator flag, writes the byte 93 at `existing` and
returns 0. -/
def IOServiceGetMatchingServices (j : Jelly) (port mtch existing : Nat) : Jelly × Nat :=
  ({ j with eth_iterator_hack := true, mem := memWrite j.mem existing [93] }, 0)

/-- Hook `_IOIteratorNext` (`nac.rs` lines 296–302): returns the sentinel
handle 94 and lowers the flag when the one-shot flag is up, otherwise
returns 0. -/
def IOIteratorNext (j : Jelly) (iterator : Nat) : Jelly × Nat :=
  if j.eth_iterator_hack then
    ({ j with eth_iterator_hack := false }, 94)
  else (j, 0)

/-- Model of `cf_dictionary_create_mutable` (`nac.rs` lines 270–273): appends an
empty dictionary to the object table and returns the new table length as
its handle. -/
def cf_dictionary_create_mutable (j : Jelly) : Jelly × Nat :=
  let objs := j.cf_objects ++ [CfObject.dictionary []]
  ({ j with cf_objects := objs }, objs.length)

/-- Model of `Jelly::parse_cfstr_ptr` (`jelly.rs` lines 130–140): reads the 32-byte
CFString descriptor at `ptr`, decodes its four 8-byte fields — `isa`,
`flags`, `str_ptr`, `length` — with `u64::from_be_bytes`, then reads
`length` bytes at `str_ptr`.  The source finishes with
`String::from_utf8(..).unwrap()`; we keep the byte list the string is
built from. -/
def parse_cfstr_ptr (j : Jelly) (ptr : Nat) : List Nat :=
  let buf := memRead j.mem ptr 32
  let str_ptr := u64_from_be ((buf.drop 16).take 8)
  let length := u64_from_be ((buf.drop 24).take 8)
  memRead j.mem str_ptr length

/-- The descriptor parse as the spec describes it: the same four 8-byte
fields, but decoded in the emulated x86-64 little-endian byte order
(`u64::from_le_bytes`), for comparison with `parse_cfstr_ptr`. -/
def parse_cfstr_ptr_spec_le (j : Jelly) (ptr : Nat) : List Nat :=
  let buf := memRead j.mem ptr 32
  let str_ptr := u64_from_le ((buf.drop 16).take 8)
  let length := u64_from_le ((buf.drop 24).take 8)
  memRead j.mem str_ptr length

/-- Model of `_parse_cstr_ptr` (`nac.rs` lines 252–256): reads a fixed 256-byte
buffer at `ptr` (the source builds the string from the whole buffer). -/
def parse_cstr_ptr (j : Jelly) (ptr : Nat) : List Nat :=
  memRead j.mem ptr 256

/-- Hook `_IORegistryEntryCreateCFProperty` (`nac.rs` lines 156–169):
parses the key string out of emulated memory and looks it up in the
bundled fixture dataset (`data.plist`, a compiled-in asset whose entries
are `Data`/`String` values; it is passed here as the parameter
`fixture`).  On a hit the converted value is pushed and the new table
length returned; on a miss the hook returns 0. -/
def IORegistryEntryCreateCFProperty (fixture : List (List Nat × CfObject))
    (j : Jelly) (entry key allocator options : Nat) : Jelly × Nat :=
  let key_bytes := parse_cfstr_ptr j key
  match dictGet fixture key_bytes with
  | some v =>
    let objs := j.cf_objects ++ [v]
    ({ j with cf_objects := objs }, objs.length)
  | none => (j, 0)

/-- Hook `_DADiskCopyDescription` (`nac.rs` lines 202–209): creates a
fresh dictionary, inserts the fixture's root-disk UUID under the
volume-UUID key, and returns the dictionary's handle.  `none` is the
source's `invalid object type` panic (unreachable for the fresh
handle). -/
def DADiskCopyDescription (root_disk_uuid : List Nat) (j : Jelly) :
    Option (Jelly × Nat) :=
  let p := cf_dictionary_create_mutable j
  let j1 := p.1
  let description := p.2
  match cfGet j1.cf_objects description with
  | some (.dictionary m) =>
    some ({ j1 with
             cf_objects := j1.cf_objects.set (description - 1)
               (.dictionary (dictInsert m volumeUUIDKey (.string root_disk_uuid))) },
          description)
  | _ => none

/-- Hook `_IOServiceMatching` (`nac.rs` lines 257–267): reads the service
class name as a C string, creates a fresh dictionary, stores the name
under `"IOProviderClass"` and returns the dictionary's handle. -/
def IOServiceMatching (j : Jelly) (name : Nat) : Option (Jelly × Nat) :=
  let nm := parse_cstr_ptr j name
  let p := cf_dictionary_create_mutable j
  let j1 := p.1
  let dd := p.2
  match cfGet j1.cf_objects dd with
  | some (.dictionary m) =>
    some ({ j1 with
             cf_objects := j1.cf_objects.set (dd - 1)
               (.dictionary (dictInsert m ioProviderClassBytes (.string nm))) },
          dd)
  | _ => none

/-- The hook operations of `nac.rs` that touch the object table or the
machine state, bundled as one step type so invariants can be stated over
every operation at once. -/
inductive NacOp where
  | memsetChk (dest c len dest_len : Nat)
  | stringGetCString (s buf buf_len enc : Nat)
  | dictGetValue (d k : Nat)
  | dictSetValue (d k v : Nat)
  | dictCreateMutable
  | registryCreateProperty (fixture : List (List Nat × CfObject)) (entry key alloc opts : Nat)
  | diskCopyDescription (uuid : List Nat)
  | serviceMatching (name : Nat)
  | getMatchingServices (port mtch existing : Nat)
  | iteratorNext (it : Nat)
  | mallocOp (size : Nat)

/-- Run one hook operation; `none` is a panic in the corresponding
source hook. -/
def applyOp : NacOp → Jelly → Option (Jelly × Nat)
  | .memsetChk dest c len dl, j => some (memset_chk j dest c len dl)
  | .stringGetCString s buf bl enc, j => CFStringGetCString j s buf bl enc
  | .dictGetValue d k, j => CFDictionaryGetValue j d k
  | .dictSetValue d k v, j => CFDictionarySetValue j d k v
  | .dictCreateMutable, j => some (cf_dictionary_create_mutable j)
  | .registryCreateProperty fx e k a o, j => some (IORegistryEntryCreateCFProperty fx j e k a o)
  | .diskCopyDescription uuid, j => DADiskCopyDescription uuid j
  | .serviceMatching name, j => IOServiceMatching j name
  | .getMatchingServices p m e, j => some (IOServiceGetMatchingServices j p m e)
  | .iteratorNext it, j => some (IOIteratorNext j it)
  | .mallocOp size, j => some (malloc j size)

/-- Handles returned by `n` successive `_CFDictionaryCreateMutable`
calls, in call order. -/
def createSeq (j : Jelly) : Nat → List Nat
  | 0 => []
  | n + 1 =>
    let p := cf_dictionary_create_mutable j
    p.2 :: createSeq p.1 n

/-- Return values of `n` successive `_IOIteratorNext` calls, in call
order. -/
def iterNextSeq (j : Jelly) (it : Nat) : Nat → List Nat
  | 0 => []
  | n + 1 =>
    let p := IOIteratorNext j it
    p.2 :: iterNextSeq p.1 it n

/-- Failure modes of the loader/driver layer: `panic` models the Rust
panics the source actually contains (`unwrap`, `unreachable!`, slice
index out of bounds); `formatError` is the reported-error mode the spec
describes (no code path in `nac.rs` produces it — `get_x64_slice` returns
a bare `&[u8]`). -/
inductive Failure where
  | panic
  | formatError
deriving DecidableEq, Repr

/-- One `fat_arch` entry of a fat (multi-architecture) Mach-O header, as
parsed by the `mach_object` crate: five big-endian `u32` fields. -/
structure FatArch where
  cputype : Nat
  cpusubtype : Nat
  offset : Nat
  size : Nat
  align : Nat
deriving Repr

/-- Constant `mach_object::CPU_TYPE_X86_64` (`CPU_TYPE_X86 | CPU_ARCH_ABI64`). -/
def CPU_TYPE_X86_64 : Nat := 0x01000007

/-- Constant `FAT_MAGIC`. -/
def FAT_MAGIC : Nat := 0xCAFEBABE

/-- Big-endian `u32` read at byte offset `off`. -/
def u32be (bs : List Nat) (off : Nat) : Nat :=
  u64_from_be ((bs.drop off).take 4)

/-- Model of `mach_object::OFile`, restricted to the shape `get_x64_slice`
distinguishes: a fat container with its architecture entries, or any
other successfully parsed file. -/
inductive OFile where
  | fatFile (archs : List FatArch)
  | other
deriving Repr

/-- Parse the `fat_arch` entry at index `i`. -/
def parseFatArch (bs : List Nat) (i : Nat) : FatArch :=
  { cputype := u32be bs (8 + 20 * i)
    cpusubtype := u32be bs (8 + 20 * i + 4)
    offset := u32be bs (8 + 20 * i + 8)
    size := u32be bs (8 + 20 * i + 12)
    align := u32be bs (8 + 20 * i + 16) }

/-- Model of `OFile::parse`, to the extent `get_x64_slice` consumes it: a
big-endian `FAT_MAGIC` header yields `fatFile` with its `nfat_arch`
entries (truncated headers are parse errors); any other magic parses as
some non-fat `OFile` (parsing inside each fat member is abstracted —
a member parse failure would surface as the same `unwrap` panic). -/
def parseOFile (bs : List Nat) : Except String OFile :=
  if bs.length < 8 then .error eofErr
  else if u32be bs 0 = FAT_MAGIC then
    let n := u32be bs 4
    if 8 + 20 * n ≤ bs.length then
      .ok (.fatFile ((List.range n).map (parseFatArch bs)))
    else .error eofErr
  else .ok .other

/-- Model of `get_x64_slice` (`nac.rs` lines 12–24): parses the fat container
(`unwrap` panics on a parse error), requires a fat file (`unreachable!`
otherwise), finds the x86-64 entry (`unwrap` panics when absent), and
returns `&binary[offset..offset + size]` (an out-of-range slice index
also panics). -/
def get_x64_slice (binary : List Nat) : Except Failure (List Nat) :=
  match parseOFile binary with
  | .error _ => .error .panic
  | .ok .other => .error .panic
  | .ok (.fatFile archs) =>
    match archs.find? (fun a => a.cputype = CPU_TYPE_X86_64) with
    | none => .error .panic
    | some a =>
      if a.offset + a.size ≤ binary.length then
        .ok ((binary.drop a.offset).take a.size)
      else .error .panic

/-- Model of `generate_validation_data` (`nac.rs` lines 86–89): extracts the
x86-64 slice of the bundled binary, then returns the hardcoded literal
`"validation data"` — the extracted slice is dropped, no emulation or
base64 encoding happens on this path. -/
def generate_validation_data (binary : List Nat) : Except Failure String :=
  (get_x64_slice binary).map (fun _ => "validation data")

/-- The `trait Hook` of `jelly.rs` together with the arity check the
`hook!` macro compiles into every implementation: `run` is the hook body,
`arity` its declared `args()`, and `hookInvoke` below panics (`none`)
when the argument slice does not match the declared arity. -/
structure HookImpl where
  arity : Nat
  run : Jelly → List Nat → Option (Jelly × Nat)

/-- Invoke a hook the way the `hook!` macro body does: the
`let [args…] = *args else panic!` pattern fails unless exactly `arity`
arguments are supplied. -/
def hookInvoke (h : HookImpl) (j : Jelly) (args : List Nat) : Option (Jelly × Nat) :=
  if args.length = h.arity then h.run j args else none

/-- The `_malloc` hook as registered in `load_nac` (arity 1). -/
def malloc_hook : HookImpl :=
  { arity := 1
    run := fun j args =>
      match args with
      | [size] => some (malloc j size)
      | _ => none }

/-- Association-list lookup (model of `HashMap::get` for the hook and
resolved-address tables). -/
def alistFind {α β : Type} [DecidableEq α] : List (α × β) → α → Option β
  | [], _ => none
  | (k', v) :: t, k => if k' = k then some v else alistFind t k

/-- The trace callback installed by `Jelly::setup` (`jelly.rs` lines
115–123) at one address of the hook-trampoline region: when
`resolved_hooks` maps the address to a symbol name it runs
`self.hooks[name].hook(self, &[])` — an empty argument list, indexing
panic if the name is missing from the hook table, and the hook's return
value discarded (never written to RAX). -/
def code_hook (resolved : List (Nat × String)) (table : List (String × HookImpl))
    (j : Jelly) (addr : Nat) : Option Jelly :=
  match alistFind resolved addr with
  | none => some j
  | some name =>
    match alistFind table name with
    | none => none
    | some h => (hookInvoke h j []).map Prod.fst

/-! Concrete fixtures used by witnesses and counterexamples. -/

/-- A minimal well-formed fat container: magic `0xCAFEBABE`, one entry
(cputype x86-64, cpusubtype 3, offset 28, size 4, align 0), followed by
its 4 member bytes. -/
def demoFat : List Nat :=
  [0xCA, 0xFE, 0xBA, 0xBE, 0, 0, 0, 1,
   1, 0, 0, 7, 0, 0, 0, 3, 0, 0, 0, 28, 0, 0, 0, 4, 0, 0, 0, 0,
   0xCF, 0xFA, 0xED, 0xFE]

/-- A well-formed fat container whose only entry is ARM (cputype 12):
no x86-64 member. -/
def armFat : List Nat :=
  [0xCA, 0xFE, 0xBA, 0xBE, 0, 0, 0, 1,
   0, 0, 0, 12, 0, 0, 0, 3, 0, 0, 0, 28, 0, 0, 0, 4, 0, 0, 0, 0,
   0, 1, 2, 3]

/-- State whose handle 1 is the volume-UUID key string and handle 2 a
dictionary holding one byte-buffer value under that key. -/
def jW4 : Jelly :=
  { cf_objects := [CfObject.string volumeUUIDKey,
                   CfObject.dictionary [(volumeUUIDKey, CfObject.data [7])]],
    eth_iterator_hack := false, mem := fun _ => 0, heap_size := 0 }

/-- State whose handle 1 is a 3-byte string. -/
def jW6 : Jelly :=
  { cf_objects := [CfObject.string [10, 20, 30]],
    eth_iterator_hack := false, mem := fun _ => 0, heap_size := 0 }

/-- State with a string key at handle 1, a data value at handle 2 and an
empty dictionary at handle 3. -/
def jW8 : Jelly :=
  { cf_objects := [CfObject.string [1, 2], CfObject.data [9],
                   CfObject.dictionary []],
    eth_iterator_hack := false, mem := fun _ => 0, heap_size := 0 }

/-- The state after one `_CFDictionaryCreateMutable` on a fresh
harness. -/
def jW9 : Jelly :=
  { cf_objects := [CfObject.dictionary []],
    eth_iterator_hack := false, mem := fun _ => 0, heap_size := 0 }

/-- A CFString descriptor whose `str_ptr` (= `0x200`) and `length`
(= 3) fields are stored little-endian, as an x86-64 binary stores
them. -/
def cfstrDescriptorLE : List Nat :=
  List.replicate 16 0 ++ [0, 2, 0, 0, 0, 0, 0, 0] ++ [3, 0, 0, 0, 0, 0, 0, 0]

/-- Memory holding the little-endian descriptor at `0x100` and the
3 UTF-8 bytes `"abc"` at `0x200`. -/
def jCfstr : Jelly :=
  { cf_objects := [], eth_iterator_hack := false,
    mem := memWrite (memWrite (fun _ => 0) 0x100 cfstrDescriptorLE) 0x200 [97, 98, 99],
    heap_size := 0 }

/-! Helper lemmas. -/

theorem memWrite_lt (m : Nat → Nat) (addr : Nat) (bs : List Nat) (a : Nat)
    (h1 : addr ≤ a) (h2 : a - addr < bs.length) :
    memWrite m addr bs a = bs.getD (a - addr) 0 := by
  simp [memWrite, h1, h2]

theorem memWrite_out (m : Nat → Nat) (addr : Nat) (bs : List Nat) (a : Nat)
    (h : ¬ (addr ≤ a ∧ a - addr < bs.length)) :
    memWrite m addr bs a = m a := by
  simp only [memWrite, if_neg h]

theorem memRead_length (m : Nat → Nat) (addr n : Nat) :
    (memRead m addr n).length = n := by
  simp [memRead]

theorem cfGet_isSome_iff (objs : List CfObject) (h : Nat) :
    (cfGet objs h).isSome ↔ h ≠ 0 ∧ h - 1 < objs.length := by
  by_cases h0 : h = 0
  · simp [cfGet, h0]
  · simp only [cfGet, if_neg h0, List.get?_eq_getElem?]
    cases hx : objs[h - 1]? with
    | none =>
      simp only [List.getElem?_eq_none_iff] at hx
      simp [h0]; omega
    | some a =>
      simp [h0]
      exact (List.getElem?_eq_some.mp hx).1

theorem cfGet_isSome_of_le {objs objs' : List CfObject}
    (hl : objs.length ≤ objs'.length) (h : Nat) :
    (cfGet objs h).isSome → (cfGet objs' h).isSome := by
  rw [cfGet_isSome_iff, cfGet_isSome_iff]
  omega

theorem cfGet_ne_zero {objs : List CfObject} {h : Nat} {v : CfObject}
    (hx : cfGet objs h = some v) : h ≠ 0 ∧ h - 1 < objs.length := by
  have : (cfGet objs h).isSome := by rw [hx]; rfl
  exact (cfGet_isSome_iff objs h).mp this

/-! Theorems for the claims. -/

/-- C10: `___memset_chk` writes exactly `len` copies of the low byte of
`c` at `dest` and returns 0, for every value of its declared-capacity
argument `dest_len`: two invocations differing only in `dest_len` are
identical, the capacity is never consulted and no bound is enforced
against it. -/
theorem memset_chk_ignores_dest_len (j : Jelly) (dest c len dl1 dl2 : Nat) :
    memset_chk j dest c len dl1 = memset_chk j dest c len dl2 ∧
    (memset_chk j dest c len dl1).2 = 0 ∧
    (∀ i, i < len → (memset_chk j dest c len dl1).1.mem (dest + i) = c % 256) ∧
    (∀ a, a < dest ∨ dest + len ≤ a →
      (memset_chk j dest c len dl1).1.mem a = j.mem a) := by
  refine ⟨rfl, rfl, ?_, ?_⟩
  · intro i hi
    show memWrite j.mem dest (List.replicate len (c % 256)) (dest + i) = c % 256
    rw [memWrite_lt _ _ _ _ (Nat.le_add_right _ _)
      (by rw [List.length_replicate]; omega)]
    simp [List.getD_eq_getElem?_getD, List.getElem?_replicate, hi]
  · intro a ha
    show memWrite j.mem dest (List.replicate len (c % 256)) a = j.mem a
    apply memWrite_out
    rw [List.length_replicate]
    omega

/-- Witness for C10 at a concrete state: `dest_len` 7 and 99 give the
same result, and byte 2 of the region holds the low byte of 300. -/
theorem memset_chk_ignores_dest_len_witness :
    memset_chk Jelly.new 50 300 4 7 = memset_chk Jelly.new 50 300 4 99 ∧
    (memset_chk Jelly.new 50 300 4 7).1.mem (50 + 2) = 300 % 256 :=
  ⟨(memset_chk_ignores_dest_len Jelly.new 50 300 4 7 99).1,
   (memset_chk_ignores_dest_len Jelly.new 50 300 4 7 99).2.2.1 2 (by decide)⟩

/-- After `eth_iterator_hack` is down, every `_IOIteratorNext` call
returns 0 and leaves the flag down. -/
theorem iterNextSeq_flag_false (it n : Nat) :
    ∀ (j : Jelly), j.eth_iterator_hack = false →
      iterNextSeq j it n = List.replicate n 0 := by
  induction n with
  | zero => intro j _; rfl
  | succ n ih =>
    intro j h
    simp only [iterNextSeq, IOIteratorNext, h, Bool.false_eq_true, if_false,
      List.replicate_succ]
    rw [ih j h]

/-- C5: after `_IOServiceGetMatchingServices` runs, the next
`_IOIteratorNext` call returns the sentinel handle 94 exactly once, and
every later call (any number of them) returns 0. -/
theorem iterator_next_one_shot (j : Jelly) (port mtch existing it n : Nat) :
    iterNextSeq ((IOServiceGetMatchingServices j port mtch existing).1) it (n + 1) =
      94 :: List.replicate n 0 := by
  simp only [iterNextSeq, IOServiceGetMatchingServices, IOIteratorNext, if_pos rfl,
    List.cons.injEq]
  exact ⟨rfl, iterNextSeq_flag_false it n _ rfl⟩

/-- C6: `_CFStringGetCString` with a capacity `cap` smaller than the
string's byte length writes exactly the first `cap` bytes of the string
at `buf`, leaves every byte outside `[buf, buf + cap)` unchanged, and
returns `cap`. -/
theorem cfstring_get_cstring_truncation (j : Jelly) (sh buf cap enc : Nat)
    (s : List Nat) (hs : cfGet j.cf_objects sh = some (.string s))
    (hcap : cap < s.length) :
    CFStringGetCString j sh buf cap enc =
      some ({ j with mem := memWrite j.mem buf (s.take cap) }, cap) ∧
    (s.take cap).length = cap ∧
    (∀ i, i < cap → memWrite j.mem buf (s.take cap) (buf + i) = s.getD i 0) ∧
    (∀ a, a < buf ∨ buf + cap ≤ a → memWrite j.mem buf (s.take cap) a = j.mem a) := by
  refine ⟨?_, ?_, ?_, ?_⟩
  · simp only [CFStringGetCString, hs]
    have hn : (if s.length > cap then cap else s.length) = cap := if_pos hcap
    rw [hn]
  · rw [List.length_take]; omega
  · intro i hi
    rw [memWrite_lt _ _ _ _ (Nat.le_add_right _ _)
      (by rw [List.length_take]; omega)]
    simp [Nat.add_sub_cancel_left, List.getD_eq_getElem?_getD, List.getElem?_take, hi]
  · intro a ha
    apply memWrite_out
    rw [List.length_take]
    omega

/-- Witness for C6: a 3-byte string copied with capacity 2 writes its
first two bytes and returns 2. -/
theorem cfstring_get_cstring_truncation_witness :
    CFStringGetCString jW6 1 100 2 0 =
      some ({ jW6 with mem := memWrite jW6.mem 100 ([10, 20, 30].take 2) }, 2) ∧
    memWrite jW6.mem 100 ([10, 20, 30].take 2) (100 + 1) = [10, 20, 30].getD 1 0 :=
  ⟨(cfstring_get_cstring_truncation jW6 1 100 2 0 [10, 20, 30] rfl (by decide)).1,
   (cfstring_get_cstring_truncation jW6 1 100 2 0 [10, 20, 30] rfl
      (by decide)).2.2.1 1 (by decide)⟩

/-- C1: whatever binary `generate_validation_data` (`nac.rs`) succeeds
on, the string it returns is the hardcoded literal `"validation data"` —
it is a constant, not the base64 encoding of any emulation-computed
byte blob (no core setup, hook registration or `call()` happens on this
path). -/
theorem generate_validation_data_returns_constant (binary : List Nat) (r : String)
    (h : generate_validation_data binary = .ok r) : r = "validation data" := by
  unfold generate_validation_data at h
  cases hx : get_x64_slice binary with
  | error e => rw [hx] at h; simp [Except.map] at h
  | ok s =>
    rw [hx] at h
    simp only [Except.map, Except.ok.injEq] at h
    exact h.symm

/-- Witness for C1: on the concrete fat container the driver returns
exactly the literal. -/
theorem generate_validation_data_returns_constant_witness :
    generate_validation_data demoFat = Except.ok validationDataStr ∧
    validationDataStr = "validation data" :=
  ⟨rfl, generate_validation_data_returns_constant demoFat validationDataStr rfl⟩

/-- C2: the trace callback `Jelly::setup` installs does not behave as
claimed.  With the `resolved_hooks` map as the source leaves it (empty —
it is never populated), entering the trampoline region invokes no hook
at all; and even with the map populated for `_malloc` (declared arity
1), the callback calls the hook with an empty argument slice — reading
no argument registers — so the `hook!` arity check panics, and the
callback discards the hook's return value instead of writing RAX. -/
theorem code_hook_invokes_without_args :
    code_hook [] [(mallocSym, malloc_hook)] Jelly.new 0xD00000 = some Jelly.new ∧
    code_hook [(0xD00000, mallocSym)] [(mallocSym, malloc_hook)] Jelly.new 0xD00000
      = none ∧
    malloc_hook.arity = 1 := by
  refine ⟨rfl, ?_, rfl⟩
  simp [code_hook, alistFind, hookInvoke, malloc_hook]

/-- C3 counterexample: on a well-formed fat container with no x86-64
member, `get_x64_slice` panics (an `unwrap` on `None`); it does not
report a `FormatError` — no code path of the function produces one. -/
theorem get_x64_slice_panics_not_formatError :
    get_x64_slice armFat = .error .panic ∧ Failure.panic ≠ Failure.formatError :=
  ⟨rfl, by decide⟩

/-- C3 as amended: for a container that parses as a fat file whose
x86-64 entry fits in the buffer, `get_x64_slice` returns the byte slice
starting at the entry's declared offset with length exactly its declared
size; when the fat file has no x86-64 entry, it fails by panicking
(`unwrap`), not by reporting a `FormatError`. -/
theorem get_x64_slice_slice_and_panic :
    (∀ (bin : List Nat) (archs : List FatArch) (a : FatArch),
      parseOFile bin = .ok (.fatFile archs) →
      archs.find? (fun x => x.cputype = CPU_TYPE_X86_64) = some a →
      a.offset + a.size ≤ bin.length →
      get_x64_slice bin = .ok ((bin.drop a.offset).take a.size) ∧
      ((bin.drop a.offset).take a.size).length = a.size) ∧
    (∀ (bin : List Nat) (archs : List FatArch),
      parseOFile bin = .ok (.fatFile archs) →
      archs.find? (fun x => x.cputype = CPU_TYPE_X86_64) = none →
      get_x64_slice bin = .error .panic) := by
  constructor
  · intro bin archs a hp hf hb
    constructor
    · simp only [get_x64_slice, hp, hf, if_pos hb]
    · rw [List.length_take, List.length_drop]; omega
  · intro bin archs hp hf
    simp only [get_x64_slice, hp, hf]

/-- Witness for the amended C3 at the concrete container: the slice is
the 4 declared member bytes. -/
theorem get_x64_slice_slice_and_panic_witness :
    get_x64_slice demoFat = .ok ((demoFat.drop 28).take 4) ∧
    ((demoFat.drop 28).take 4).length = 4 :=
  get_x64_slice_slice_and_panic.1 demoFat
    [⟨0x01000007, 3, 28, 4, 0⟩] ⟨0x01000007, 3, 28, 4, 0⟩ rfl rfl (by decide)

/-- C4: `_CFDictionaryGetValue` invoked with the sentinel key constant
`0xc3c3c3c3c3c3c3c3` behaves exactly like the same call with a handle
that resolves to the literal string `"DADiskDescriptionVolumeUUIDKey"`,
whatever dictionary handle `d` is supplied. -/
theorem dict_get_sentinel_key_equiv (j : Jelly) (d kh : Nat)
    (hk : cfGet j.cf_objects kh = some (.string volumeUUIDKey)) :
    CFDictionaryGetValue j d sentinelKey = CFDictionaryGetValue j d kh := by
  by_cases hkh : kh = sentinelKey
  · rw [hkh]
  · cases hd : cfGet j.cf_objects d with
    | none => simp only [CFDictionaryGetValue, hd]
    | some dobj => simp [CFDictionaryGetValue, hd, hk, hkh]

/-- Witness for C4 at a concrete state: the sentinel call and the
string-handle call coincide on a dictionary holding the key. -/
theorem dict_get_sentinel_key_equiv_witness :
    CFDictionaryGetValue jW4 2 sentinelKey = CFDictionaryGetValue jW4 2 1 :=
  dict_get_sentinel_key_equiv jW4 2 1 rfl

/-- C8: on any state whose tables a Rust `Vec` can hold (length below
`2 ^ 63`), `_CFDictionarySetValue` with a string key handle `kh` and a
value handle `vh` stores the binding in the dictionary at `d`, and the
following `_CFDictionaryGetValue` on `d` with the same key hands back a
fresh handle that resolves to exactly the stored value. -/
theorem dict_set_get_roundtrip (j : Jelly) (d kh vh : Nat) (k : List Nat)
    (v : CfObject) (m : List (List Nat × CfObject))
    (hlen : j.cf_objects.length < 2 ^ 63)
    (hk : cfGet j.cf_objects kh = some (.string k))
    (hv : cfGet j.cf_objects vh = some v)
    (hd : cfGet j.cf_objects d = some (.dictionary m)) :
    CFDictionarySetValue j d kh vh =
      some ({ j with cf_objects :=
        j.cf_objects.set (d - 1) (.dictionary (dictInsert m k v)) }, 0) ∧
    CFDictionaryGetValue
        { j with cf_objects :=
            j.cf_objects.set (d - 1) (.dictionary (dictInsert m k v)) } d kh =
      some ({ j with cf_objects :=
        j.cf_objects.set (d - 1) (.dictionary (dictInsert m k v)) ++ [v] },
        j.cf_objects.length + 1) ∧
    cfGet (j.cf_objects.set (d - 1) (.dictionary (dictInsert m k v)) ++ [v])
        (j.cf_objects.length + 1) = some v := by
  obtain ⟨hd0, hdlt⟩ := cfGet_ne_zero hd
  obtain ⟨hk0, hklt⟩ := cfGet_ne_zero hk
  have hkd : kh ≠ d := by
    intro he
    rw [he, hd] at hk
    simp at hk
  have hks : kh ≠ sentinelKey := by
    have h63 : (2 : Nat) ^ 63 = 9223372036854775808 := by norm_num
    rw [h63] at hlen
    simp only [sentinelKey]
    omega
  refine ⟨?_, ?_, ?_⟩
  · simp only [CFDictionarySetValue, hk, hv, hd]
  · have hget_d :
        cfGet (j.cf_objects.set (d - 1) (.dictionary (dictInsert m k v))) d
          = some (.dictionary (dictInsert m k v)) := by
      simp only [cfGet, if_neg hd0, List.get?_eq_getElem?]
      exact List.getElem?_set_self hdlt
    have hget_k :
        cfGet (j.cf_objects.set (d - 1) (.dictionary (dictInsert m k v))) kh
          = some (.string k) := by
      simp only [cfGet, if_neg hk0, List.get?_eq_getElem?] at hk ⊢
      rw [List.getElem?_set_ne (by omega)]
      exact hk
    simp only [CFDictionaryGetValue, hget_d, hget_k, if_neg hks]
    simp [dictGet, dictInsert, List.length_set]
  · simp only [cfGet, if_neg (by omega : ¬ j.cf_objects.length + 1 = 0),
      Nat.add_sub_cancel, List.get?_eq_getElem?]
    rw [show j.cf_objects.length
        = (j.cf_objects.set (d - 1) (.dictionary (dictInsert m k v))).length from
      (List.length_set _ _ _).symm]
    exact List.getElem?_concat_length _ _

/-- Witness for C8 at a concrete state: key `[1, 2]` at handle 1, value
`data [9]` at handle 2, empty dictionary at handle 3. -/
theorem dict_set_get_roundtrip_witness :
    CFDictionarySetValue jW8 3 1 2 =
      some ({ jW8 with
        cf_objects := jW8.cf_objects.set (3 - 1) (.dictionary (dictInsert [] [1, 2] (.data [9]))) }, 0) ∧
    CFDictionaryGetValue
        { jW8 with
          cf_objects := jW8.cf_objects.set (3 - 1) (.dictionary (dictInsert [] [1, 2] (.data [9]))) }
        3 1 =
      some ({ jW8 with
        cf_objects := jW8.cf_objects.set (3 - 1) (.dictionary (dictInsert [] [1, 2] (.data [9]))) ++ [.data [9]] },
        jW8.cf_objects.length + 1) ∧
    cfGet (jW8.cf_objects.set (3 - 1) (.dictionary (dictInsert [] [1, 2] (.data [9]))) ++ [.data [9]])
        (jW8.cf_objects.length + 1) = some (.data [9]) :=
  dict_set_get_roundtrip jW8 3 1 2 [1, 2] (.data [9]) [] (by decide) rfl rfl rfl

/-- The handles a run of `_CFDictionaryCreateMutable` calls returns,
starting from any state, are consecutive from one past the current
table length. -/
theorem createSeq_from (n : Nat) : ∀ j : Jelly,
    createSeq j n = List.range' (j.cf_objects.length + 1) n := by
  induction n with
  | zero => intro j; rfl
  | succ n ih =>
    intro j
    rw [List.range'_succ]
    simp only [createSeq]
    have h1 : (cf_dictionary_create_mutable j).2 = j.cf_objects.length + 1 := by
      simp [cf_dictionary_create_mutable]
    have h2 : createSeq (cf_dictionary_create_mutable j).1 n
        = List.range' (j.cf_objects.length + 1 + 1) n := by
      rw [ih]
      simp [cf_dictionary_create_mutable]
    rw [h1, h2]

/-- C9: object-creating operations append and return the new table
length as the handle — `N` successive creations on a fresh harness
return exactly the handles `1..=N` in call order — and no modeled hook
operation ever shrinks the object table or invalidates an issued
handle: lengths are monotone and every resolvable handle stays
resolvable. -/
theorem handle_table_append_only :
    (∀ n, createSeq Jelly.new n = List.range' 1 n) ∧
    (∀ j : Jelly, cf_dictionary_create_mutable j =
      ({ j with cf_objects := j.cf_objects ++ [CfObject.dictionary []] },
       j.cf_objects.length + 1)) ∧
    (∀ (op : NacOp) (j j' : Jelly) (r : Nat), applyOp op j = some (j', r) →
      j.cf_objects.length ≤ j'.cf_objects.length ∧
      ∀ h, (cfGet j.cf_objects h).isSome → (cfGet j'.cf_objects h).isSome) := by
  refine ⟨?_, ?_, ?_⟩
  · intro n
    have := createSeq_from n Jelly.new
    simpa [Jelly.new] using this
  · intro j
    simp [cf_dictionary_create_mutable]
  · intro op j j' r hop
    have hle : j.cf_objects.length ≤ j'.cf_objects.length := by
      cases op
      all_goals
        simp only [applyOp, memset_chk, CFStringGetCString, CFDictionaryGetValue,
          CFDictionarySetValue, cf_dictionary_create_mutable,
          IORegistryEntryCreateCFProperty, DADiskCopyDescription, IOServiceMatching,
          IOServiceGetMatchingServices, IOIteratorNext, malloc] at hop
      all_goals (repeat' split at hop)
      all_goals (try simp_all)
      all_goals (try (obtain ⟨hj, -⟩ := hop; subst hj))
      all_goals (try simp [List.length_set])
    exact ⟨hle, fun h => cfGet_isSome_of_le hle h⟩

/-- Witness for C9: three creations on a fresh harness return handles
`[1, 2, 3]`, and one concrete `applyOp` step keeps the table length
monotone. -/
theorem handle_table_append_only_witness :
    createSeq Jelly.new 3 = [1, 2, 3] ∧
    Jelly.new.cf_objects.length ≤ jW9.cf_objects.length :=
  ⟨(handle_table_append_only.1 3).trans rfl,
   (handle_table_append_only.2.2 NacOp.dictCreateMutable Jelly.new jW9 1 rfl).1⟩

/-- C7: `Jelly::parse_cfstr_ptr` decodes the descriptor's 8-byte fields
with `from_be_bytes` (big-endian), while the emulated x86-64 binary
stores them little-endian (as the rest of `jelly.rs` assumes via
`to_le_bytes`/`from_le_bytes`).  On a well-formed little-endian
descriptor — `str_ptr = 0x200`, `length = 3`, bytes `"abc"` at `0x200` —
the little-endian reading required by the claim yields the 3 bytes of
`"abc"`, but the code's big-endian reading misreads the length field as
`3 * 2 ^ 56` and returns a different byte sequence. -/
theorem parse_cfstr_ptr_big_endian_bug :
    parse_cfstr_ptr_spec_le jCfstr 0x100 = [97, 98, 99] ∧
    (parse_cfstr_ptr jCfstr 0x100).length = 3 * 2 ^ 56 ∧
    parse_cfstr_ptr jCfstr 0x100 ≠ parse_cfstr_ptr_spec_le jCfstr 0x100 := by
  have h1 : parse_cfstr_ptr_spec_le jCfstr 0x100 = [97, 98, 99] := by decide
  have h2 : (parse_cfstr_ptr jCfstr 0x100).length = 3 * 2 ^ 56 := by
    simp only [parse_cfstr_ptr, memRead_length]
    decide
  refine ⟨h1, h2, ?_⟩
  intro he
  rw [he, h1] at h2
  simp at h2

end RustPush
